import Mathlib

/-!
Verification development for the static-analysis engine of the
`mcp-code-analyzer` repository.

The Python sources under `src/analyzers/` are shallowly embedded below:
pure functions become Lean functions, the stateful visitors and scanners
become explicit state passing, Python exceptions become `Except`, Python
`dict`/`set` become association lists / membership-deduplicated lists.
Files and filesystems are modelled by the observations the code makes of
them (byte size, line count, parse outcome, directory listing).
-/

namespace MCA

/-! ## Python container helpers

`dict` keeps insertion order; writing an existing key updates in place.
`set.add` is modelled as append-if-absent (iteration order of Python sets
is not observable in any property below; only membership is).
`list.index` returns the first index and raises `ValueError` when absent,
which we model with `Option`.
-/

def dictGet (d : List (String × α)) (k : String) : Option α :=
  match d with
  | [] => none
  | (k', v) :: rest => if k' = k then some v else dictGet rest k

def dictInsert (d : List (String × α)) (k : String) (v : α) : List (String × α) :=
  match d with
  | [] => [(k, v)]
  | (k', v') :: rest =>
    if k' = k then (k', v) :: rest else (k', v') :: dictInsert rest k v

def dictKeys (d : List (String × α)) : List String :=
  d.map Prod.fst

/-- Python `set.add`: no effect when the element is already present. -/
def pyAdd (x : String) (s : List String) : List String :=
  if x ∈ s then s else s ++ [x]

/-- Python `set.remove` (the element is present at every use site below). -/
def pyRemove (x : String) (s : List String) : List String :=
  s.filter (fun y => y ≠ x)

/-- Python `list.index`: index of the first occurrence, `none` models the
`ValueError` raised when the element is absent. -/
def pyIndex (l : List String) (x : String) : Option Nat :=
  match l with
  | [] => none
  | y :: rest =>
    if y = x then some 0
    else match pyIndex rest x with
         | some i => some (i + 1)
         | none => none

/-- Index of the last occurrence of `c` in `s`, over the character list
(model of Python `str.rfind` restricted to single-character needles). -/
def lastIdxOf (cs : List Char) (c : Char) : Option Nat :=
  match cs with
  | [] => none
  | x :: rest =>
    match lastIdxOf rest c with
    | some i => some (i + 1)
    | none => if x = c then some 0 else none

/-- Python `PurePath.suffix` of a file name: `"." ++` the part after the
last dot, provided that dot is neither the first nor the last character;
otherwise `""`. -/
def pySuffix (name : String) : String :=
  let cs := name.toList
  match lastIdxOf cs '.' with
  | none => ""
  | some i => if 0 < i ∧ i < cs.length - 1 then String.mk (cs.drop i) else ""

/-- Python `PurePath.stem`: the file name with its suffix removed. -/
def pyStem (name : String) : String :=
  let cs := name.toList
  match lastIdxOf cs '.' with
  | none => name
  | some i => if 0 < i ∧ i < cs.length - 1 then String.mk (cs.take i) else name

/-! Character-level models of the string operations the sources use
(`str.split('.')`, `'.'.join`, `str.startswith`, `str.endswith`, slicing
and `str.lower`), written by structural recursion over the character
list so that every concrete property below evaluates. -/

/-- Python `s.split('.')` (always at least one piece; `"" ↦ [""]`). -/
def splitOnDot (s : String) : List String :=
  go s.toList []
where go : List Char → List Char → List String
  | [], acc => [String.mk acc.reverse]
  | c :: rest, acc =>
    if c = '.' then String.mk acc.reverse :: go rest [] else go rest (c :: acc)

/-- Python `'.'.join(parts)`. -/
def joinDots : List String → String
  | [] => ""
  | [s] => s
  | s :: rest => s ++ "." ++ joinDots rest

/-- Python `s.startswith(p)`. -/
def strStartsWith (s p : String) : Bool :=
  p.toList.isPrefixOf s.toList

/-- Python `s.endswith(p)`. -/
def strEndsWith (s p : String) : Bool :=
  p.toList.reverse.isPrefixOf s.toList.reverse

/-- Python `s[n:]`. -/
def strDrop (s : String) (n : Nat) : String :=
  String.mk (s.toList.drop n)

/-- Python `s[:-n]` for `n ≤ len(s)`. -/
def strDropRight (s : String) (n : Nat) : String :=
  String.mk (s.toList.take (s.toList.length - n))

/-- Python `s.lower()` (ASCII case folding suffices for the inputs
below; extensions are compared after lowering). -/
def strToLower (s : String) : String :=
  String.mk (s.toList.map Char.toLower)

/-- Code-point order on strings (Python's `<=` on `str`). -/
def charListLe : List Char → List Char → Bool
  | [], _ => true
  | _ :: _, [] => false
  | a :: as, b :: bs => if a = b then charListLe as bs else decide (a.val < b.val)

def stringLe (a b : String) : Prop := charListLe a.toList b.toList = true

instance : DecidableRel stringLe := fun _ _ => instDecidableEqBool _ _

/-! ## Embedding of the Python AST (`python_analyzer.py`)

Only the node kinds the analyzer dispatches on are distinguished;
every other node class is represented by `other` with its class-name tag
and its child nodes.  `ast.walk` yields each node of the tree exactly
once (the source uses breadth-first order; all uses below fold a
commutative sum over the nodes, so we enumerate in pre-order).
-/

inductive PyAst where
  | moduleNode (body : List PyAst)
  | ifStmt (test : PyAst) (body orelse : List PyAst)
  | whileStmt (test : PyAst) (body orelse : List PyAst)
  | forStmt (target iter : PyAst) (body orelse : List PyAst)
  | tryStmt (body handlers orelse finalbody : List PyAst)
  | exceptHandler (body : List PyAst)
  | withStmt (items body : List PyAst)
  | withItem (context_expr : PyAst) (optional_vars : List PyAst)
  | boolOp (values : List PyAst)
  | functionDef (name : String) (body : List PyAst)
  | asyncFunctionDef (name : String) (body : List PyAst)
  | classDef (name : String) (bases : List String) (body : List PyAst)
  | importStmt (names : List PyAst)
  | importFrom (moduleName : Option String) (names : List PyAst) (level : Nat)
  | aliasNode (aliasName : String) (asname : Option String)
  | other (tag : String) (children : List PyAst)

mutual

/-- All nodes of the subtree rooted at `t`, the root included
(the node multiset enumerated by `ast.walk`). -/
def walk : PyAst → List PyAst
  | .moduleNode body => .moduleNode body :: walkList body
  | .ifStmt test body orelse =>
      .ifStmt test body orelse :: (walk test ++ walkList body ++ walkList orelse)
  | .whileStmt test body orelse =>
      .whileStmt test body orelse :: (walk test ++ walkList body ++ walkList orelse)
  | .forStmt target iter body orelse =>
      .forStmt target iter body orelse ::
        (walk target ++ walk iter ++ walkList body ++ walkList orelse)
  | .tryStmt body handlers orelse finalbody =>
      .tryStmt body handlers orelse finalbody ::
        (walkList body ++ walkList handlers ++ walkList orelse ++ walkList finalbody)
  | .exceptHandler body => .exceptHandler body :: walkList body
  | .withStmt items body => .withStmt items body :: (walkList items ++ walkList body)
  | .withItem ce ov => .withItem ce ov :: (walk ce ++ walkList ov)
  | .boolOp values => .boolOp values :: walkList values
  | .functionDef name body => .functionDef name body :: walkList body
  | .asyncFunctionDef name body => .asyncFunctionDef name body :: walkList body
  | .classDef name bases body => .classDef name bases body :: walkList body
  | .importStmt names => .importStmt names :: walkList names
  | .importFrom m names lvl => .importFrom m names lvl :: walkList names
  | .aliasNode n a => [.aliasNode n a]
  | .other tag children => .other tag children :: walkList children

def walkList : List PyAst → List PyAst
  | [] => []
  | t :: ts => walk t ++ walkList ts

end

/-- The per-node increment of `_calculate_cyclomatic_complexity`
(the `isinstance` chain, in source order; Python `int` arithmetic, hence
`Int`: `len(node.values) - 1` may be negative on a degenerate `BoolOp`). -/
def cyclomaticIncrement : PyAst → Int
  | .ifStmt .. => 1
  | .whileStmt .. => 1
  | .forStmt .. => 1
  | .exceptHandler .. => 1
  | .withStmt items _ => (items.length : Int)
  | .boolOp values => (values.length : Int) - 1
  | _ => 0

/-- `PythonAnalyzer._calculate_cyclomatic_complexity`: base 1 plus the
increment of every node yielded by `ast.walk(tree)`. -/
def calculate_cyclomatic_complexity (tree : PyAst) : Int :=
  1 + ((walk tree).map cyclomaticIncrement).sum

/-- The per-node increment of `_calculate_function_complexity`
(only `If`/`While`/`For`/`ExceptHandler`; no `With`/`BoolOp` terms). -/
def functionIncrement : PyAst → Nat
  | .ifStmt .. => 1
  | .whileStmt .. => 1
  | .forStmt .. => 1
  | .exceptHandler .. => 1
  | _ => 0

/-- `PythonASTVisitor._calculate_function_complexity`: base 1 plus the
function-level increment of every node of the function's subtree. -/
def calculate_function_complexity (node : PyAst) : Nat :=
  1 + ((walk node).map functionIncrement).sum

/-! ### Specification-side counters

A structural fold over the tree (independent of `walk`), instantiated
once per construct named by the spec sentence on cyclomatic complexity.
-/

mutual

/-- Sum of `f` over every node of the subtree, by structural recursion. -/
def sumOver (f : PyAst → Nat) : PyAst → Nat
  | .moduleNode body => f (.moduleNode body) + sumOverList f body
  | .ifStmt test body orelse =>
      f (.ifStmt test body orelse) + sumOver f test
        + sumOverList f body + sumOverList f orelse
  | .whileStmt test body orelse =>
      f (.whileStmt test body orelse) + sumOver f test
        + sumOverList f body + sumOverList f orelse
  | .forStmt target iter body orelse =>
      f (.forStmt target iter body orelse) + sumOver f target + sumOver f iter
        + sumOverList f body + sumOverList f orelse
  | .tryStmt body handlers orelse finalbody =>
      f (.tryStmt body handlers orelse finalbody) + sumOverList f body
        + sumOverList f handlers + sumOverList f orelse + sumOverList f finalbody
  | .exceptHandler body => f (.exceptHandler body) + sumOverList f body
  | .withStmt items body =>
      f (.withStmt items body) + sumOverList f items + sumOverList f body
  | .withItem ce ov => f (.withItem ce ov) + sumOver f ce + sumOverList f ov
  | .boolOp values => f (.boolOp values) + sumOverList f values
  | .functionDef name body => f (.functionDef name body) + sumOverList f body
  | .asyncFunctionDef name body => f (.asyncFunctionDef name body) + sumOverList f body
  | .classDef name bases body => f (.classDef name bases body) + sumOverList f body
  | .importStmt names => f (.importStmt names) + sumOverList f names
  | .importFrom m names lvl => f (.importFrom m names lvl) + sumOverList f names
  | .aliasNode n a => f (.aliasNode n a)
  | .other tag children => f (.other tag children) + sumOverList f children

def sumOverList (f : PyAst → Nat) : List PyAst → Nat
  | [] => 0
  | t :: ts => sumOver f t + sumOverList f ts

end

/-- Indicator of a conditional branch (an `ast.If` node). -/
def incIf : PyAst → Nat
  | .ifStmt .. => 1
  | _ => 0

/-- Indicator of a `while` loop. -/
def incWhile : PyAst → Nat
  | .whileStmt .. => 1
  | _ => 0

/-- Indicator of a `for` loop. -/
def incFor : PyAst → Nat
  | .forStmt .. => 1
  | _ => 0

/-- Indicator of an exception-handler clause. -/
def incExcept : PyAst → Nat
  | .exceptHandler .. => 1
  | _ => 0

/-- Boolean-operator operands beyond the first at one node. -/
def incBoolExtra : PyAst → Nat
  | .boolOp values => values.length - 1
  | _ => 0

/-- Resource-management (`with`) clause items at one node. -/
def incWithItems : PyAst → Nat
  | .withStmt items _ => items.length
  | _ => 0

/-- Number of conditional branches (`ast.If` nodes) in the whole tree. -/
def countIf (t : PyAst) : Nat := sumOver incIf t

/-- Number of `while` loops in the whole tree. -/
def countWhile (t : PyAst) : Nat := sumOver incWhile t

/-- Number of `for` loops in the whole tree. -/
def countFor (t : PyAst) : Nat := sumOver incFor t

/-- Number of exception-handler clauses in the whole tree. -/
def countExcept (t : PyAst) : Nat := sumOver incExcept t

/-- Number of boolean-operator operands beyond the first, over the tree. -/
def countBoolOpExtra (t : PyAst) : Nat := sumOver incBoolExtra t

/-- Number of resource-management (`with`) clause items, over the tree. -/
def countWithItems (t : PyAst) : Nat := sumOver incWithItems t

/-- Every boolean-operator node has at least one operand.  Trees produced
by a successful `ast.parse` satisfy this (real `BoolOp` nodes have at
least two operands). -/
def wellFormedBoolOps (t : PyAst) : Bool :=
  (walk t).all fun n => match n with | .boolOp values => !values.isEmpty | _ => true

/-! ## `PythonASTVisitor` (`python_analyzer.py`)

The visitor's records are embedded without source-line fields (the AST
model carries no positions; no property below mentions them), and class
records without the annotated-attribute list.  `current_class` becomes
the explicit context argument `ctx`, pushed on entering a class body and
restored by returning, exactly as the source's save/restore discipline.
-/

structure ImportRec where
  module : String
  name : Option String
  asname : Option String
  importKind : String
deriving DecidableEq, Repr

structure FuncRec where
  name : String
  is_async : Bool
  parent_class : Option String
  complexity : Nat
deriving DecidableEq, Repr

structure ClassRec where
  name : String
  bases : List String
  methods : List String
deriving DecidableEq, Repr

structure VisitorState where
  imports : List ImportRec
  functions : List FuncRec
  classes : List ClassRec
  dependencies : List String
deriving DecidableEq, Repr

/-- Python `s.split('.')[0]`. -/
def firstSegment (s : String) : String :=
  (splitOnDot s).headD ""

/-- `visit_Import`: one record per alias; the first dotted segment of
each imported name joins the dependency set. -/
def doImportAliases (s : VisitorState) : List PyAst → VisitorState
  | [] => s
  | .aliasNode n a :: rest =>
      doImportAliases
        { s with imports := s.imports ++ [⟨n, none, a, "import"⟩],
                 dependencies := pyAdd (firstSegment n) s.dependencies } rest
  | _ :: rest => doImportAliases s rest

/-- `visit_ImportFrom`: the stored module text is `'.' * level ++ module`;
for a non-empty module its first segment joins the dependency set. -/
def doFromAliases (s : VisitorState) (m : Option String) (lvl : Nat) :
    List PyAst → VisitorState
  | [] => s
  | .aliasNode n a :: rest =>
      let module := m.getD ""
      let s1 := { s with imports :=
        s.imports ++ [⟨String.mk (List.replicate lvl '.') ++ module, some n, a, "from_import"⟩] }
      let s2 := if module ≠ "" then
          { s1 with dependencies := pyAdd (firstSegment module) s1.dependencies }
        else s1
      doFromAliases s2 m lvl rest
  | _ :: rest => doFromAliases s m lvl rest

/-- `visit_ClassDef`'s scan of the class body for method names. -/
def methodNames (body : List PyAst) : List String :=
  body.filterMap fun n => match n with
    | .functionDef nm _ => some nm
    | .asyncFunctionDef nm _ => some nm
    | _ => none

mutual

/-- The visitor dispatch: handled node kinds update the state and then
`generic_visit` their children; every other node just descends. -/
def visit : Option String → VisitorState → PyAst → VisitorState
  | ctx, s, .importStmt names => visitList ctx (doImportAliases s names) names
  | ctx, s, .importFrom m names lvl => visitList ctx (doFromAliases s m lvl names) names
  | ctx, s, .functionDef name body =>
      visitList ctx
        { s with functions := s.functions ++
            [⟨name, false, ctx, calculate_function_complexity (.functionDef name body)⟩] }
        body
  | ctx, s, .asyncFunctionDef name body =>
      visitList ctx
        { s with functions := s.functions ++
            [⟨name, true, ctx, calculate_function_complexity (.asyncFunctionDef name body)⟩] }
        body
  | _, s, .classDef name bases body =>
      visitList (some name)
        { s with classes := s.classes ++ [⟨name, bases, methodNames body⟩] } body
  | ctx, s, .moduleNode body => visitList ctx s body
  | ctx, s, .ifStmt test body orelse =>
      visitList ctx (visitList ctx (visit ctx s test) body) orelse
  | ctx, s, .whileStmt test body orelse =>
      visitList ctx (visitList ctx (visit ctx s test) body) orelse
  | ctx, s, .forStmt target iter body orelse =>
      visitList ctx (visitList ctx (visit ctx (visit ctx s target) iter) body) orelse
  | ctx, s, .tryStmt body handlers orelse finalbody =>
      visitList ctx (visitList ctx (visitList ctx (visitList ctx s body) handlers) orelse) finalbody
  | ctx, s, .exceptHandler body => visitList ctx s body
  | ctx, s, .withStmt items body => visitList ctx (visitList ctx s items) body
  | ctx, s, .withItem ce ov => visitList ctx (visit ctx s ce) ov
  | ctx, s, .boolOp values => visitList ctx s values
  | _, s, .aliasNode _ _ => s
  | ctx, s, .other _ children => visitList ctx s children

def visitList : Option String → VisitorState → List PyAst → VisitorState
  | _, s, [] => s
  | ctx, s, t :: ts => visitList ctx (visit ctx s t) ts

end

def emptyVisitorState : VisitorState := ⟨[], [], [], []⟩

def runVisitor (tree : PyAst) : VisitorState :=
  visit none emptyVisitorState tree

/-- Ascending order on strings used for Python `sorted`. -/
def sortStrings (l : List String) : List String :=
  l.insertionSort stringLe

/-- `PythonASTVisitor.get_dependencies`: collected first segments minus
the standard-library module names (supplied as a parameter, the model of
`sys.stdlib_module_names`), sorted. -/
def get_dependencies (stdlib : List String) (v : VisitorState) : List String :=
  sortStrings (v.dependencies.filter fun d => d ∉ stdlib)

/-! ## `base.py`: `FileInfo`, `AnalysisResult`, size check -/

structure FileInfo where
  path : String
  size_bytes : Nat
  line_count : Nat
  encoding : String := "utf-8"
  language : String := "unknown"
deriving DecidableEq, Repr

structure ErrorRec where
  errType : String
  message : String
  line : Option Nat
  offset : Option Nat
deriving DecidableEq, Repr

/-- The dataclass before `__post_init__` runs: every field that Python
declares with default `None` is an `Option` here. `complexity_metrics`
is the metrics dict, modelled as an association list. -/
structure AnalysisResult where
  file_info : FileInfo
  ast_data : Option String := none
  functions : Option (List FuncRec) := none
  imports : Option (List ImportRec) := none
  classes : Option (List ClassRec) := none
  dependencies : Option (List String) := none
  complexity_metrics : Option (List (String × Int)) := none
  errors : Option (List ErrorRec) := none
deriving DecidableEq, Repr

/-- `AnalysisResult.__post_init__`: replace each `None` list-typed field
by an empty container. -/
def postInit (r : AnalysisResult) : AnalysisResult :=
  { r with
    imports := some (r.imports.getD []),
    functions := some (r.functions.getD []),
    classes := some (r.classes.getD []),
    dependencies := some (r.dependencies.getD []),
    complexity_metrics := some (r.complexity_metrics.getD []),
    errors := some (r.errors.getD []) }

/-- Constructing the dataclass always runs `__post_init__`. -/
def AnalysisResult.make (fi : FileInfo) (astData : Option String)
    (fns : Option (List FuncRec)) (imps : Option (List ImportRec))
    (cls : Option (List ClassRec)) (deps : Option (List String))
    (cm : Option (List (String × Int))) (errs : Option (List ErrorRec)) :
    AnalysisResult :=
  postInit ⟨fi, astData, fns, imps, cls, deps, cm, errs⟩

/-! ## `PythonAnalyzer.analyze`

A file is modelled by the observations the analyzer makes of it:
existence, `stat().st_size` (an `Except`, since `stat` can raise), the
detected encoding, and the outcome of `read_text` — which on success is
the line count of the content together with the outcome of `ast.parse`.
The filesystem is a snapshot, so repeated `stat` calls agree.
-/

inductive PyExc where
  | valueError (msg : String)
  | osError (msg : String)
deriving DecidableEq, Repr

structure SynErrInfo where
  msg : String
  lineno : Option Nat
  offset : Option Nat
deriving DecidableEq, Repr

structure PyContent where
  line_count : Nat
  parse : Except SynErrInfo PyAst

structure PyFileModel where
  path : String
  exists_b : Bool
  stat_size : Except PyExc Nat
  encoding_detected : String
  read_text : Except PyExc PyContent

/-- `BaseAnalyzer._check_file_size`: `size <= limit`, `False` when `stat`
raises (the exception is caught and logged). -/
def check_file_size (f : PyFileModel) (maxBytes : Nat) : Bool :=
  match f.stat_size with
  | .ok s => decide (s ≤ maxBytes)
  | .error _ => false

/-- `BaseAnalyzer.__init__` default: `10 * 1024 * 1024` bytes. -/
def max_file_size_bytes : Nat := 10 * 1024 * 1024

/-- `PythonAnalyzer._ast_to_dict` reduced to the node's class name (the
field sub-dictionary carries no information any property below uses). -/
def astTag : PyAst → String
  | .moduleNode .. => "Module"
  | .ifStmt .. => "If"
  | .whileStmt .. => "While"
  | .forStmt .. => "For"
  | .tryStmt .. => "Try"
  | .exceptHandler .. => "ExceptHandler"
  | .withStmt .. => "With"
  | .withItem .. => "withitem"
  | .boolOp .. => "BoolOp"
  | .functionDef .. => "FunctionDef"
  | .asyncFunctionDef .. => "AsyncFunctionDef"
  | .classDef .. => "ClassDef"
  | .importStmt .. => "Import"
  | .importFrom .. => "ImportFrom"
  | .aliasNode .. => "alias"
  | .other tag _ => tag

/-- `PythonAnalyzer._calculate_complexity`: the metrics dict.  The
visitor's `lines_of_code` and `comment_lines` counters are initialized
to zero and never updated anywhere in the source, so they are always 0;
cognitive complexity and maintainability index are unimplemented 0. -/
def calculate_complexity (tree : PyAst) : List (String × Int) :=
  [("cyclomatic_complexity", calculate_cyclomatic_complexity tree),
   ("cognitive_complexity", 0),
   ("maintainability_index", 0),
   ("lines_of_code", 0),
   ("comment_lines", 0)]

/-- `PythonAnalyzer.analyze`.  Control flow of the source `try` block:
size gate first (a `ValueError` escapes — only `SyntaxError` is caught);
then `read_text` (its exceptions re-raise); then `FileInfo` construction
(the second `stat`); then `ast.parse`: a parse failure lands in the
`except SyntaxError` handler which returns a structured result, every
other exception is re-raised by the final `except Exception` clause. -/
def analyze (stdlib : List String) (maxBytes : Nat) (f : PyFileModel) :
    Except PyExc AnalysisResult :=
  if ¬ check_file_size f maxBytes then
    .error (.valueError ("File too large: " ++ f.path))
  else
    match f.read_text with
    | .error e => .error e
    | .ok content =>
      match f.stat_size with
      | .error e => .error e
      | .ok size =>
        match content.parse with
        | .ok tree =>
          let v := runVisitor tree
          .ok (AnalysisResult.make
            ⟨f.path, size, content.line_count, f.encoding_detected, "python"⟩
            (some (astTag tree)) (some v.functions) (some v.imports)
            (some v.classes) (some (get_dependencies stdlib v))
            (some (calculate_complexity tree)) none)
        | .error e =>
          match (if f.exists_b then f.stat_size else .ok 0) with
          | .error e2 => .error e2
          | .ok sb =>
            .ok (AnalysisResult.make
              ⟨f.path, sb, 0, "utf-8", "python"⟩
              none none none none none none
              (some [⟨"SyntaxError", e.msg, e.lineno, e.offset⟩]))

/-! ## `dependency_mapper.py`: `PythonDependencyMapper`

A project file is modelled by its path components relative to the
project root together with the outcome of parsing it (abstracted to the
list of its import statements; `_analyze_file_imports` catches every
exception, so a failed read/parse leaves the maps untouched).  The
`external_dependencies` output (which needs `sys.stdlib_module_names`)
is not required by any property below and is omitted.
-/

inductive PyImportStmt where
  | plain (aliases : List (String × Option String))
  | fromImport (module : Option String) (names : List String) (level : Nat)
deriving DecidableEq, Repr

/-- `dependency_mapper.ImportInfo` (without file/line fields). -/
structure DepImportInfo where
  import_type : String
  module : String
  names : List String
  is_relative : Bool
  level : Nat
deriving DecidableEq, Repr

/-- `dependency_mapper.ImportVisitor`: one record per alias of a plain
import; one record per `from` statement, module defaulting to `""`. -/
def collectImportInfos : List PyImportStmt → List DepImportInfo
  | [] => []
  | .plain aliases :: rest =>
      (aliases.map fun a => ⟨"import", a.1, [(a.2).getD a.1], false, 0⟩)
        ++ collectImportInfos rest
  | .fromImport m names lvl :: rest =>
      ⟨"from_import", m.getD "", names, decide (0 < lvl), lvl⟩ :: collectImportInfos rest

structure MapperFile where
  relParts : List String
  parse : Except Unit (List PyImportStmt)

/-- `PythonDependencyMapper._path_to_module`: components with the final
one replaced by its stem, a trailing `__init__` dropped, dot-joined. -/
def path_to_module (relParts : List String) : String :=
  match relParts.getLast? with
  | none => ""
  | some last =>
    let parts := relParts.dropLast ++ [pyStem last]
    let parts := if parts.getLast? = some "__init__" then parts.dropLast else parts
    joinDots parts

/-- The descending scan of `_resolve_import`'s absolute branch: the
longest dotted prefix of the imported name that is a known module. -/
def longestKnown (module_paths : List (String × List String))
    (parts : List String) : Nat → Option String
  | 0 => none
  | i + 1 =>
    let cand := joinDots (parts.take (i + 1))
    if (dictGet module_paths cand).isSome then some cand
    else longestKnown module_paths parts i

/-- `PythonDependencyMapper._resolve_import`. -/
def resolve_import (module_paths : List (String × List String))
    (module_name : String) (from_relParts : List String)
    (is_relative : Bool) (level : Nat) : Option String :=
  if is_relative then
    let current_parts := splitOnDot (path_to_module from_relParts)
    if level > current_parts.length then none
    else
      let base_parts :=
        if 0 < level then current_parts.take (current_parts.length - level)
        else current_parts.dropLast
      if module_name ≠ "" then
        some (joinDots (base_parts ++ splitOnDot module_name))
      else
        some (joinDots base_parts)
  else
    if (dictKeys module_paths).any
        (fun known => decide (known = module_name) || strStartsWith known (module_name ++ ".")) then
      some module_name
    else
      longestKnown module_paths (splitOnDot module_name) (splitOnDot module_name).length

structure MapperState where
  dependencies : List (String × List String)
  imports : List (String × List DepImportInfo)
deriving DecidableEq, Repr

/-- Append one import record to a module's entry (used by the per-import
loop of `_analyze_file_imports`). -/
def dictAppendImport (d : List (String × List DepImportInfo)) (k : String)
    (v : DepImportInfo) : List (String × List DepImportInfo) :=
  dictInsert d k ((dictGet d k).getD [] ++ [v])

/-- `set.add` into the dependency set of module `k`. -/
def dictAddDep (d : List (String × List String)) (k : String) (v : String) :
    List (String × List String) :=
  dictInsert d k (pyAdd v ((dictGet d k).getD []))

/-- The per-import loop body of `_analyze_file_imports`: record the
import, resolve it, and add a dependency when the resolved name is a
known internal module. -/
def processInfos (module_paths : List (String × List String))
    (from_relParts : List String) (module_name : String) :
    MapperState → List DepImportInfo → MapperState
  | st, [] => st
  | st, info :: rest =>
    let st1 := { st with imports := dictAppendImport st.imports module_name info }
    let st2 :=
      match resolve_import module_paths info.module from_relParts
              info.is_relative info.level with
      | some resolved =>
        if (dictGet module_paths resolved).isSome then
          { st1 with dependencies := dictAddDep st1.dependencies module_name resolved }
        else st1
      | none => st1
    processInfos module_paths from_relParts module_name st2 rest

/-- `PythonDependencyMapper._analyze_file_imports`: on a successful
parse, install empty entries for the module and process its imports; a
failed read/parse (caught and logged in the source) changes nothing. -/
def analyze_file_imports (module_paths : List (String × List String))
    (st : MapperState) (file : MapperFile) : MapperState :=
  match file.parse with
  | .error _ => st
  | .ok stmts =>
    let module_name := path_to_module file.relParts
    let st1 : MapperState :=
      { dependencies := dictInsert st.dependencies module_name [],
        imports := dictInsert st.imports module_name [] }
    processInfos module_paths file.relParts module_name st1 (collectImportInfos stmts)

def isPyFile (file : MapperFile) : Bool :=
  match file.relParts.getLast? with
  | some last => decide (pySuffix last = ".py")
  | none => false

/-- Pass 1 of `map_dependencies`: the module-name → path index, built in
file order (a later file with the same module name overwrites). -/
def buildModulePaths (files : List MapperFile) : List (String × List String) :=
  files.foldl
    (fun mp f =>
      if isPyFile f then dictInsert mp (path_to_module f.relParts) f.relParts else mp)
    []

structure DepResult where
  dependencies : List (String × List String)
  imports : List (String × List DepImportInfo)
  module_paths : List (String × List String)
deriving DecidableEq, Repr

/-- `PythonDependencyMapper.map_dependencies`: pass 1 builds the full
module index, pass 2 analyzes every `.py` file's imports against it. -/
def map_dependencies (files : List MapperFile) : DepResult :=
  let module_paths := buildModulePaths files
  let st := files.foldl
    (fun st f => if isPyFile f then analyze_file_imports module_paths st f else st)
    (⟨[], []⟩ : MapperState)
  ⟨st.dependencies, st.imports, module_paths⟩

/-- Dependency list of a module in the mapper output (empty when the
module has no entry). -/
def depsOf (r : DepResult) (m : String) : List String :=
  (dictGet r.dependencies m).getD []

/-! ## `constants.py` -/

def DEFAULT_IGNORE_PATTERNS : List String :=
  ["__pycache__", ".git", ".venv", "venv", "env",
   "node_modules", ".idea", ".vscode", "*.pyc",
   "*.pyo", ".DS_Store", "*.egg-info", "dist",
   "build", ".pytest_cache", ".mypy_cache",
   ".coverage", "htmlcov", ".tox", ".ruff_cache",
   "*.log", "*.sqlite", "*.db", ".env*",
   ".dockerignore", ".gitignore"]

def LANGUAGE_MAP : List (String × String) :=
  [(".py", "python"), (".pyw", "python"), (".pyx", "python"),
   (".pxd", "python"), (".pyi", "python"),
   (".js", "javascript"), (".mjs", "javascript"), (".jsx", "javascript"),
   (".ts", "typescript"), (".tsx", "typescript"),
   (".java", "java"), (".scala", "scala"), (".kt", "kotlin"), (".groovy", "groovy"),
   (".c", "c"), (".h", "c"), (".cpp", "cpp"), (".cc", "cpp"), (".cxx", "cpp"),
   (".hpp", "cpp"), (".hh", "cpp"), (".hxx", "cpp"),
   (".go", "go"), (".rs", "rust"), (".cs", "csharp"), (".rb", "ruby"),
   (".php", "php"), (".swift", "swift"), (".r", "r"), (".R", "r"),
   (".m", "matlab"), (".jl", "julia"), (".lua", "lua"), (".dart", "dart"),
   (".sh", "shell"), (".bash", "shell"), (".zsh", "shell"), (".fish", "shell"),
   (".ps1", "powershell"), (".psm1", "powershell"),
   (".sql", "sql"), (".json", "json"), (".xml", "xml"), (".yaml", "yaml"),
   (".yml", "yaml"), (".toml", "toml"), (".ini", "ini"), (".cfg", "ini"),
   (".conf", "conf"),
   (".html", "html"), (".htm", "html"), (".css", "css"), (".scss", "scss"),
   (".sass", "sass"), (".less", "less"),
   (".md", "markdown"), (".rst", "restructuredtext"), (".tex", "latex"),
   (".adoc", "asciidoc")]

/-! ## `structure_analyzer.py`: `ProjectStructureAnalyzer`

The filesystem is a snapshot tree: a directory entry carries its listing
in iteration order, a file entry its byte size.  Permission errors and
nonexistent roots are not represented (no property below exercises
them); the depth ceiling, ignore filtering, statistics, and tree
construction are modelled exactly.
-/

inductive FsEntry where
  | file (name : String) (size : Nat)
  | dir (name : String) (entries : List FsEntry)

def FsEntry.entryName : FsEntry → String
  | .file n _ => n
  | .dir n _ => n

/-- `ProjectStructureAnalyzer._should_ignore`: exact name match, or a
glob-style pattern with a leading or trailing `*`. -/
def should_ignore (patterns : List String) (name : String) : Bool :=
  decide (name ∈ patterns) ||
  patterns.any fun p =>
    (strStartsWith p "*" && strEndsWith name (strDrop p 1)) ||
    (strEndsWith p "*" && strStartsWith name (strDropRight p 1))

structure FileNode where
  name : String
  size : Nat
  extension : String
  language : Option String
deriving DecidableEq, Repr

inductive DirNode where
  | mk (name : String) (files : List FileNode) (directories : List DirNode)

def DirNode.name : DirNode → String
  | .mk n _ _ => n

def DirNode.files : DirNode → List FileNode
  | .mk _ fs _ => fs

def DirNode.directories : DirNode → List DirNode
  | .mk _ _ ds => ds

/-- `DirectoryNode.add_file`. -/
def addFile (node : DirNode) (fn : FileNode) : DirNode :=
  .mk node.name (node.files ++ [fn]) node.directories

/-- `DirectoryNode.add_directory`: the children form a dict keyed by
name, so a same-named child is replaced, otherwise appended. -/
def addDirChild : List DirNode → DirNode → List DirNode
  | [], d => [d]
  | c :: rest, d =>
    if c.name = d.name then d :: rest else c :: addDirChild rest d

def addDir (node : DirNode) (sub : DirNode) : DirNode :=
  .mk node.name node.files (addDirChild node.directories sub)

structure ScanStats where
  total_files : Nat
  total_size : Nat
  file_types : List (String × Nat)
  language_stats : List (String × Nat)
deriving DecidableEq, Repr

def bumpCount (d : List (String × Nat)) (k : String) : List (String × Nat) :=
  dictInsert d k ((dictGet d k).getD 0 + 1)

/-- `ProjectStructureAnalyzer._analyze_file` (the `stat` failure branch
is unreachable in the snapshot model). -/
def analyze_file (nm : String) (sz : Nat) : FileNode :=
  let extension := strToLower (pySuffix nm)
  ⟨nm, sz, extension, dictGet LANGUAGE_MAP extension⟩

def max_depth_default : Nat := 10

mutual

/-- `ProjectStructureAnalyzer._analyze_directory`: an empty node past
the depth ceiling, otherwise fold the listing. -/
def scanDir (patterns : List String) (maxDepth : Nat) :
    FsEntry → Nat → ScanStats → DirNode × ScanStats
  | .file nm _, _, s => (.mk nm [] [], s)
  | .dir nm entries, depth, s =>
    if depth > maxDepth then (.mk nm [] [], s)
    else scanEntries patterns maxDepth entries depth (.mk nm [] []) s

/-- The `for item in dir_path.iterdir()` loop: ignored entries are
skipped; files update statistics and the node; directories recurse. -/
def scanEntries (patterns : List String) (maxDepth : Nat) :
    List FsEntry → Nat → DirNode → ScanStats → DirNode × ScanStats
  | [], _, node, s => (node, s)
  | .file nm sz :: rest, depth, node, s =>
    if should_ignore patterns nm then
      scanEntries patterns maxDepth rest depth node s
    else
      let fn := analyze_file nm sz
      let s1 : ScanStats :=
        { total_files := s.total_files + 1,
          total_size := s.total_size + sz,
          file_types := bumpCount s.file_types fn.extension,
          language_stats :=
            match fn.language with
            | some lang => bumpCount s.language_stats lang
            | none => s.language_stats }
      scanEntries patterns maxDepth rest depth (addFile node fn) s1
  | .dir nm xs :: rest, depth, node, s =>
    if should_ignore patterns nm then
      scanEntries patterns maxDepth rest depth node s
    else
      let sub := scanDir patterns maxDepth (.dir nm xs) (depth + 1) s
      scanEntries patterns maxDepth rest depth (addDir node sub.1) sub.2

end

/-- An entry of the largest-files report.  The source's derived
`size_mb` field (a rounded float) is omitted. -/
structure LargeFileRec where
  path : String
  size : Nat
deriving DecidableEq, Repr

mutual

/-- `root_path.rglob("*")` restricted to files: every file of the tree
with its root-relative path and its name, in discovery order (each
directory's listing in order, descending at the point of discovery). -/
def rglobEntry (pfx : String) : FsEntry → List (String × String × Nat)
  | .file nm sz => [(pfx ++ nm, nm, sz)]
  | .dir nm entries => rglobEntries (pfx ++ nm ++ "/") entries

def rglobEntries (pfx : String) : List FsEntry → List (String × String × Nat)
  | [] => []
  | e :: rest => rglobEntry pfx e ++ rglobEntries pfx rest

end

/-- The enumeration phase of `_find_largest_files`: every file reached
by `rglob` (which descends even into ignored directories) whose own name
does not match the ignore patterns, in discovery order. -/
def discoveredFiles (patterns : List String) (root : FsEntry) : List LargeFileRec :=
  let files := match root with
    | .dir _ entries => rglobEntries "" entries
    | .file _ _ => []
  (files.filter fun e => !(should_ignore patterns e.2.1)).map fun e =>
    LargeFileRec.mk e.1 e.2.2

/-- The comparison of `files_with_size.sort(key=size, reverse=True)`:
descending by byte size. -/
def sizeGe (a b : LargeFileRec) : Prop := b.size ≤ a.size

instance : DecidableRel sizeGe := fun _ b => Nat.decLe b.size _

instance : IsTotal LargeFileRec sizeGe := ⟨fun a b => Nat.le_total b.size a.size⟩

instance : IsTrans LargeFileRec sizeGe := ⟨fun _ _ _ hab hbc => Nat.le_trans hbc hab⟩

/-- `ProjectStructureAnalyzer._find_largest_files`: enumerate, sort by
size descending, take the first `n`.  Python's `list.sort` is stable,
and a stable sort's output is uniquely determined by the comparator and
the input order, so the (stable) insertion sort is extensionally the
same function. -/
def find_largest_files (patterns : List String) (root : FsEntry) (n : Nat) :
    List LargeFileRec :=
  ((discoveredFiles patterns root).insertionSort sizeGe).take n

structure StructureResult where
  root : DirNode
  total_files : Nat
  total_size : Nat
  file_types : List (String × Nat)
  language_stats : List (String × Nat)
  largest_files : List LargeFileRec

/-- `ProjectStructureAnalyzer.analyze` on an existing directory root
(`n = 10` largest files, statistics reset before the walk). -/
def analyze_structure (patterns : List String) (maxDepth : Nat) (root : FsEntry) :
    Except PyExc StructureResult :=
  match root with
  | .file _ _ => .error (.valueError "Project path is not a directory")
  | .dir nm entries =>
    let r := scanDir patterns maxDepth (.dir nm entries) 0 ⟨0, 0, [], []⟩
    .ok ⟨r.1, r.2.total_files, r.2.total_size, r.2.file_types, r.2.language_stats,
         find_largest_files patterns (.dir nm entries) 10⟩

/-! ## `structure_analyzer.py`: `DependencyMapper.find_circular_dependencies`

The graph is the `dependency_graph` dict: keys in insertion order, each
with its neighbor list.  `visited`, `rec_stack` and the cycle list make
up the traversal state (`rec_stack` is maintained by the source but
never read).  `list.index` on an absent element raises `ValueError`,
modelled as an error outcome.  The recursion is embedded with explicit
fuel bounding the nesting depth; every nested call first adds a
previously-unvisited node to `visited`, so nesting never exceeds the
node count and the fuel chosen in `find_circular_dependencies` is never
exhausted on any input.
-/

abbrev PyGraph := List (String × List String)

def graphGet (g : PyGraph) (node : String) : List String :=
  (dictGet g node).getD []

structure DfsState where
  visited : List String
  rec_stack : List String
  cycles : List (List String)
deriving DecidableEq, Repr

inductive CycErr where
  | valueError
  | fuelExhausted
deriving DecidableEq, Repr

/-- The `for neighbor in ...` loop of `_find_cycles`: unvisited
neighbors recurse (on a copy of the path); visited neighbors are looked
up in the current path with `list.index`, which appends the cycle
`path[cycle_start:] + [neighbor]` when found and raises otherwise. -/
def processNeighbors
    (dfs : String → List String → DfsState → Except CycErr DfsState) :
    List String → List String → DfsState → Except CycErr DfsState
  | [], _, s => .ok s
  | n :: ns, path, s =>
    if n ∉ s.visited then
      match dfs n path s with
      | .error e => .error e
      | .ok s' => processNeighbors dfs ns path s'
    else
      match pyIndex path n with
      | some i =>
        processNeighbors dfs ns path
          { s with cycles := s.cycles ++ [path.drop i ++ [n]] }
      | none => .error .valueError

/-- `_find_cycles`: mark the node visited and on the stack, extend the
path, process the neighbors, then pop the stack. -/
def findCyclesAux (g : PyGraph) : Nat → String → List String → DfsState →
    Except CycErr DfsState
  | 0, _, _, _ => .error .fuelExhausted
  | fuel + 1, node, path, s =>
    let s1 : DfsState := ⟨pyAdd node s.visited, pyAdd node s.rec_stack, s.cycles⟩
    let path1 := path ++ [node]
    match processNeighbors (findCyclesAux g fuel) (graphGet g node) path1 s1 with
    | .error e => .error e
    | .ok s2 => .ok ⟨s2.visited, pyRemove node s2.rec_stack, s2.cycles⟩

/-- The outer `for node in self.dependency_graph` loop. -/
def cyclesTopLoop (g : PyGraph) (fuel : Nat) :
    List String → DfsState → Except CycErr DfsState
  | [], s => .ok s
  | node :: rest, s =>
    if node ∉ s.visited then
      match findCyclesAux g fuel node [] s with
      | .error e => .error e
      | .ok s' => cyclesTopLoop g fuel rest s'
    else cyclesTopLoop g fuel rest s

/-- `DependencyMapper.find_circular_dependencies`. -/
def find_circular_dependencies (g : PyGraph) :
    Except CycErr (List (List String)) :=
  let fuel := g.length + (g.map fun p => p.2.length).sum + 1
  match cyclesTopLoop g fuel (dictKeys g) ⟨[], [], []⟩ with
  | .error e => .error e
  | .ok s => .ok s.cycles

/-! ## Concrete inputs used by the properties below -/

/-- `pkg/a.py` containing the single statement `from . import b`. -/
def fileA : MapperFile := ⟨["pkg", "a.py"], .ok [.fromImport none ["b"] 1]⟩

/-- `pkg/b.py`, empty. -/
def fileB : MapperFile := ⟨["pkg", "b.py"], .ok []⟩

/-- `pkg/__init__.py`, empty. -/
def fileInitPkg : MapperFile := ⟨["pkg", "__init__.py"], .ok []⟩

/-- The parse tree of a module whose only statement is `with a: pass`:
no conditionals, loops or handlers, one `with` clause item. -/
def cxWithTree : PyAst :=
  .moduleNode [.withStmt [.withItem (.other "Name" []) []] [.other "Pass" []]]

/-- A small well-formed file whose content parses to `cxWithTree`. -/
def cxWithFile : PyFileModel := ⟨"demo.py", true, .ok 42, "utf-8", .ok ⟨1, .ok cxWithTree⟩⟩

/-- The parse tree of a module defining one straight-line function. -/
def plainFuncTree : PyAst := .moduleNode [.functionDef "f" [.other "Pass" []]]

/-- A small well-formed file whose content parses to `plainFuncTree`. -/
def plainFuncFile : PyFileModel :=
  ⟨"plain.py", true, .ok 30, "utf-8", .ok ⟨2, .ok plainFuncTree⟩⟩

/-- A file under the size ceiling whose content fails to parse. -/
def badParseFile : PyFileModel :=
  ⟨"bad.py", true, .ok 42, "utf-8", .ok ⟨7, .error ⟨"invalid syntax", some 1, some 5⟩⟩⟩

/-- A file one byte over the default ceiling; its content is not even
readable, which the size gate never observes. -/
def bigFileDemo : PyFileModel :=
  ⟨"big.py", true, .ok (max_file_size_bytes + 1), "utf-8", .error (.osError "unreadable")⟩

/-- A file under the ceiling whose read raises a non-parse exception. -/
def unreadableDemo : PyFileModel :=
  ⟨"locked.py", true, .ok 10, "utf-8", .error (.osError "unreadable")⟩

/-- A project directory with one ignored subdirectory and two files. -/
def demoProj : FsEntry :=
  .dir "proj" [.dir ".git" [.file "HEAD" 30], .file "a.py" 10, .file "b.txt" 20]

/-- A project directory with files of 10, 1000 and 500 bytes. -/
def sizesProj : FsEntry :=
  .dir "proj" [.file "small.txt" 10, .file "big.txt" 1000, .file "mid.txt" 500]

/-- `pkg.a` imports `pkg.b` and `pkg.b` imports `pkg.a`. -/
def cycleGraph : PyGraph := [("pkg.a", ["pkg.b"]), ("pkg.b", ["pkg.a"])]

/-- Two modules that both import a shared third module. -/
def sharedDepGraph : PyGraph :=
  [("pkg.a", ["pkg.c"]), ("pkg.b", ["pkg.c"]), ("pkg.c", [])]

/-! # Properties -/

/-- C1 (counterexample): for the project `{pkg/a.py: "from . import b",
pkg/b.py}`, the dependency set `map_dependencies` produces for `pkg.a`
does NOT include `pkg.b` — `_resolve_import` uses only the statement's
module part (empty here), which resolves to the containing package
`pkg`, and never consults the imported names. -/
theorem C1_counterexample :
    "pkg.b" ∉ depsOf (map_dependencies [fileA, fileB]) "pkg.a" := by
  decide

/-- C1 (amended): on that project the dependency set of `pkg.a` is
empty — the relative import resolves to the package name `pkg`, which is
recorded only when `pkg` is itself a known internal module; adding
`pkg/__init__.py` makes the recorded dependency `pkg` (still not
`pkg.b`). -/
theorem C1_amended_relative_import_resolution :
    depsOf (map_dependencies [fileA, fileB]) "pkg.a" = [] ∧
    depsOf (map_dependencies [fileA, fileB, fileInitPkg]) "pkg.a" = ["pkg"] :=
  ⟨rfl, rfl⟩

/-- C3 (code bug, evaluation at the failing input): on the graph where
`pkg.a` and `pkg.b` both import `pkg.c`, `find_circular_dependencies`
raises `ValueError` (from `path.index` on a neighbor that was visited in
an earlier DFS but is not on the current path) instead of returning a
cycle list. -/
theorem C3_valueerror_on_shared_dependency :
    find_circular_dependencies sharedDepGraph = .error .valueError := rfl

/-- C6: for every file whose reported byte size exceeds the ceiling,
`analyze` fails with the oversized-file `ValueError`.  The statement
quantifies over the file's read/parse components — including files whose
content is not even readable — so the rejection demonstrably happens
before any content is read or parsed. -/
theorem C6_oversized_file_rejected (stdlib : List String) (maxBytes : Nat)
    (f : PyFileModel) (s : Nat) (hstat : f.stat_size = .ok s)
    (hover : maxBytes < s) :
    analyze stdlib maxBytes f =
      .error (.valueError ("File too large: " ++ f.path)) := by
  unfold analyze check_file_size
  rw [hstat]
  simp [Nat.not_le.mpr hover]

/-- C6 witness: a file one byte over the default 10 MiB ceiling, with an
unreadable content, is rejected with the oversized-file error. -/
theorem C6_witness :
    analyze [] max_file_size_bytes bigFileDemo =
      .error (.valueError ("File too large: " ++ bigFileDemo.path)) :=
  C6_oversized_file_rejected [] max_file_size_bytes bigFileDemo
    (max_file_size_bytes + 1) rfl (by omega)

/-- C10: every constructed `AnalysisResult` has its list-typed fields
(`imports`, `functions`, `classes`, `dependencies`, `errors`) equal to
actual, possibly empty, lists — never absent — regardless of which
optional constructor arguments were supplied (`__post_init__` replaces
every `None` by an empty list). -/
theorem C10_list_fields_always_present (fi : FileInfo) (astData : Option String)
    (fns : Option (List FuncRec)) (imps : Option (List ImportRec))
    (cls : Option (List ClassRec)) (deps : Option (List String))
    (cm : Option (List (String × Int))) (errs : Option (List ErrorRec)) :
    (AnalysisResult.make fi astData fns imps cls deps cm errs).imports = some (imps.getD []) ∧
    (AnalysisResult.make fi astData fns imps cls deps cm errs).functions = some (fns.getD []) ∧
    (AnalysisResult.make fi astData fns imps cls deps cm errs).classes = some (cls.getD []) ∧
    (AnalysisResult.make fi astData fns imps cls deps cm errs).dependencies = some (deps.getD []) ∧
    (AnalysisResult.make fi astData fns imps cls deps cm errs).errors = some (errs.getD []) :=
  ⟨rfl, rfl, rfl, rfl, rfl⟩

/-- Helper: a file passing the size check has a successful `stat`. -/
theorem stat_ok_of_check (f : PyFileModel) (maxBytes : Nat)
    (hck : check_file_size f maxBytes = true) : ∃ s, f.stat_size = .ok s := by
  cases h : f.stat_size with
  | ok s => exact ⟨s, rfl⟩
  | error e => rw [check_file_size, h] at hck; exact absurd hck (by simp)

/-- C7: for every file under the size ceiling whose content fails to
parse, `analyze` returns normally with a `FileInfo` carrying a zero line
count and a best-effort size (the `stat` size when the file exists, `0`
otherwise) and an errors list containing the structured `SyntaxError`
entry with message, line and column; and every non-parse exception (for
example an I/O failure during `read_text`) propagates to the caller. -/
theorem C7_parse_failure_captured_other_errors_propagate
    (stdlib : List String) (maxBytes : Nat) (f : PyFileModel) :
    (∀ content e, check_file_size f maxBytes = true → f.read_text = .ok content →
        content.parse = .error e →
        ∃ r, analyze stdlib maxBytes f = .ok r ∧
          r.file_info.line_count = 0 ∧
          (f.exists_b = true → .ok r.file_info.size_bytes = f.stat_size) ∧
          (f.exists_b = false → r.file_info.size_bytes = 0) ∧
          r.errors = some [⟨"SyntaxError", e.msg, e.lineno, e.offset⟩]) ∧
    (∀ exc, check_file_size f maxBytes = true → f.read_text = .error exc →
        analyze stdlib maxBytes f = .error exc) := by
  constructor
  · intro content e hck hread hparse
    obtain ⟨s, hs⟩ := stat_ok_of_check f maxBytes hck
    cases hex : f.exists_b with
    | true =>
      have heq : analyze stdlib maxBytes f = .ok (AnalysisResult.make
          ⟨f.path, s, 0, "utf-8", "python"⟩ none none none none none none
          (some [⟨"SyntaxError", e.msg, e.lineno, e.offset⟩])) := by
        unfold analyze
        rw [hck, hread, hs]
        simp [hparse, hex, hs]
      refine ⟨_, heq, rfl, fun _ => ?_, fun h => absurd h (by decide), rfl⟩
      rw [hs]
      rfl
    | false =>
      have heq : analyze stdlib maxBytes f = .ok (AnalysisResult.make
          ⟨f.path, 0, 0, "utf-8", "python"⟩ none none none none none none
          (some [⟨"SyntaxError", e.msg, e.lineno, e.offset⟩])) := by
        unfold analyze
        rw [hck, hread, hs]
        simp [hparse, hex]
      exact ⟨_, heq, rfl, fun h => absurd h (by decide), fun _ => rfl, rfl⟩
  · intro exc hck hread
    unfold analyze
    rw [hck, hread]
    simp

/-- C7 witness: a concrete syntactically invalid file is reported as
data, and a concrete unreadable file's exception propagates. -/
theorem C7_witness :
    (∃ r, analyze [] max_file_size_bytes badParseFile = .ok r ∧
        r.file_info.line_count = 0 ∧
        (badParseFile.exists_b = true →
          .ok r.file_info.size_bytes = badParseFile.stat_size) ∧
        (badParseFile.exists_b = false → r.file_info.size_bytes = 0) ∧
        r.errors = some [⟨"SyntaxError", "invalid syntax", some 1, some 5⟩]) ∧
    analyze [] max_file_size_bytes unreadableDemo = .error (.osError "unreadable") :=
  ⟨(C7_parse_failure_captured_other_errors_propagate [] max_file_size_bytes
      badParseFile).1 ⟨7, .error ⟨"invalid syntax", some 1, some 5⟩⟩
      ⟨"invalid syntax", some 1, some 5⟩ (by decide) rfl rfl,
   (C7_parse_failure_captured_other_errors_propagate [] max_file_size_bytes
      unreadableDemo).2 (.osError "unreadable") (by decide) rfl⟩

/-- Helper: the first-occurrence index returned by `list.index` for a
present element. -/
theorem pyIndex_first (path : List String) (n : String) (hmem : n ∈ path) :
    ∃ i, pyIndex path n = some i ∧ path[i]? = some n ∧
      ∀ j, j < i → path[j]? ≠ some n := by
  induction path with
  | nil => cases hmem
  | cons y rest ih =>
    by_cases hy : y = n
    · subst hy
      exact ⟨0, by simp [pyIndex], by simp, fun j hj => by omega⟩
    · have hmem' : n ∈ rest := by
        cases hmem with
        | head => exact absurd rfl hy
        | tail _ h => exact h
      obtain ⟨i, hi, hget, hfirst⟩ := ih hmem'
      refine ⟨i + 1, ?_, by simpa using hget, ?_⟩
      · simp [pyIndex, hy, hi]
      · intro j hj
        cases j with
        | zero => simpa using hy
        | succ j =>
          have := hfirst j (by omega)
          simpa using this

/-- C2: whenever a neighbor of the current node already lies on the
current path (all of whose nodes are `visited`, the standing invariant
of the traversal), the neighbor loop reports exactly the path suffix
starting at that neighbor's first occurrence followed by the neighbor
again, and continues; and on the two-cycle graph `pkg.a ↔ pkg.b` the
function returns at least one cycle containing both names. -/
theorem C2_dfs_reports_path_suffix_cycles :
    (∀ dfs n ns path s, n ∈ path → (∀ x ∈ path, x ∈ s.visited) →
        ∃ i, pyIndex path n = some i ∧ path[i]? = some n ∧
          (∀ j, j < i → path[j]? ≠ some n) ∧
          processNeighbors dfs (n :: ns) path s =
            processNeighbors dfs ns path
              { s with cycles := s.cycles ++ [path.drop i ++ [n]] }) ∧
    (∃ cycles, find_circular_dependencies cycleGraph = .ok cycles ∧
        ∃ c, c ∈ cycles ∧ "pkg.a" ∈ c ∧ "pkg.b" ∈ c) := by
  constructor
  · intro dfs n ns path s hn hsub
    obtain ⟨i, hidx, hget, hfirst⟩ := pyIndex_first path n hn
    refine ⟨i, hidx, hget, hfirst, ?_⟩
    have hv : n ∈ s.visited := hsub n hn
    rw [processNeighbors]
    simp [hv, hidx]
  · exact ⟨[["pkg.a", "pkg.b", "pkg.a"]], rfl,
      ["pkg.a", "pkg.b", "pkg.a"], by decide, by decide, by decide⟩

/-- C2 witness: the neighbor-loop step at a concrete path and state. -/
theorem C2_witness :
    ∃ i, pyIndex ["pkg.a", "pkg.b"] "pkg.a" = some i ∧
      (["pkg.a", "pkg.b"] : List String)[i]? = some "pkg.a" ∧
      (∀ j, j < i → (["pkg.a", "pkg.b"] : List String)[j]? ≠ some "pkg.a") ∧
      processNeighbors (fun _ _ s => .ok s) ["pkg.a"] ["pkg.a", "pkg.b"]
          ⟨["pkg.a", "pkg.b"], [], []⟩ =
        processNeighbors (fun _ _ s => .ok s) [] ["pkg.a", "pkg.b"]
          ⟨["pkg.a", "pkg.b"], [],
           [] ++ [(["pkg.a", "pkg.b"] : List String).drop i ++ ["pkg.a"]]⟩ :=
  C2_dfs_reports_path_suffix_cycles.1 (fun _ _ s => .ok s) "pkg.a" []
    ["pkg.a", "pkg.b"] ⟨["pkg.a", "pkg.b"], [], []⟩ (by decide) (by decide)

/-- C8: every entry whose name matches the ignore patterns is skipped
entirely by the directory walk — removing it from any listing changes
neither the node built nor any statistic, and a matching directory is
never descended into; concretely, a project with one ignored
subdirectory and two regular files has `total_files = 2`. -/
theorem C8_ignored_entries_contribute_nothing :
    (∀ patterns maxDepth e pre post depth node s,
        should_ignore patterns e.entryName = true →
        scanEntries patterns maxDepth (pre ++ e :: post) depth node s =
          scanEntries patterns maxDepth (pre ++ post) depth node s) ∧
    ((analyze_structure DEFAULT_IGNORE_PATTERNS max_depth_default demoProj).map
        (fun r => r.total_files) = .ok 2) := by
  constructor
  · intro patterns maxDepth e pre post depth node s hig
    induction pre generalizing node s with
    | nil =>
      cases e with
      | file nm sz =>
        rw [List.nil_append, List.nil_append, scanEntries]
        simp only [FsEntry.entryName] at hig
        rw [hig]
        simp
      | dir nm xs =>
        rw [List.nil_append, List.nil_append, scanEntries]
        simp only [FsEntry.entryName] at hig
        rw [hig]
        simp
    | cons p pre ih =>
      cases p with
      | file nm sz =>
        rw [List.cons_append, List.cons_append, scanEntries, scanEntries]
        by_cases hp : should_ignore patterns nm = true
        · rw [hp]; simp only [if_true]; exact ih _ _
        · rw [Bool.not_eq_true] at hp
          rw [hp]
          simp only [Bool.false_eq_true, if_false]
          exact ih _ _
      | dir nm xs =>
        rw [List.cons_append, List.cons_append, scanEntries, scanEntries]
        by_cases hp : should_ignore patterns nm = true
        · rw [hp]; simp only [if_true]; exact ih _ _
        · rw [Bool.not_eq_true] at hp
          rw [hp]
          simp only [Bool.false_eq_true, if_false]
          exact ih _ _
  · rfl

mutual

/-- The structural per-construct sum agrees with folding over the node
enumeration of `ast.walk`. -/
theorem sumOver_eq_walkSum (f : PyAst → Nat) :
    ∀ t, sumOver f t = ((walk t).map f).sum
  | .moduleNode body => by
      simp only [sumOver, walk, List.map_cons, List.sum_cons,
        sumOverList_eq_walkSum f body]
  | .ifStmt test body orelse => by
      simp only [sumOver, walk, List.map_cons, List.sum_cons, List.map_append,
        List.sum_append, sumOver_eq_walkSum f test, sumOverList_eq_walkSum f body,
        sumOverList_eq_walkSum f orelse]
      omega
  | .whileStmt test body orelse => by
      simp only [sumOver, walk, List.map_cons, List.sum_cons, List.map_append,
        List.sum_append, sumOver_eq_walkSum f test, sumOverList_eq_walkSum f body,
        sumOverList_eq_walkSum f orelse]
      omega
  | .forStmt target iter body orelse => by
      simp only [sumOver, walk, List.map_cons, List.sum_cons, List.map_append,
        List.sum_append, sumOver_eq_walkSum f target, sumOver_eq_walkSum f iter,
        sumOverList_eq_walkSum f body, sumOverList_eq_walkSum f orelse]
      omega
  | .tryStmt body handlers orelse finalbody => by
      simp only [sumOver, walk, List.map_cons, List.sum_cons, List.map_append,
        List.sum_append, sumOverList_eq_walkSum f body,
        sumOverList_eq_walkSum f handlers, sumOverList_eq_walkSum f orelse,
        sumOverList_eq_walkSum f finalbody]
      omega
  | .exceptHandler body => by
      simp only [sumOver, walk, List.map_cons, List.sum_cons,
        sumOverList_eq_walkSum f body]
  | .withStmt items body => by
      simp only [sumOver, walk, List.map_cons, List.sum_cons, List.map_append,
        List.sum_append, sumOverList_eq_walkSum f items, sumOverList_eq_walkSum f body]
      omega
  | .withItem ce ov => by
      simp only [sumOver, walk, List.map_cons, List.sum_cons, List.map_append,
        List.sum_append, sumOver_eq_walkSum f ce, sumOverList_eq_walkSum f ov]
      omega
  | .boolOp values => by
      simp only [sumOver, walk, List.map_cons, List.sum_cons,
        sumOverList_eq_walkSum f values]
  | .functionDef name body => by
      simp only [sumOver, walk, List.map_cons, List.sum_cons,
        sumOverList_eq_walkSum f body]
  | .asyncFunctionDef name body => by
      simp only [sumOver, walk, List.map_cons, List.sum_cons,
        sumOverList_eq_walkSum f body]
  | .classDef name bases body => by
      simp only [sumOver, walk, List.map_cons, List.sum_cons,
        sumOverList_eq_walkSum f body]
  | .importStmt names => by
      simp only [sumOver, walk, List.map_cons, List.sum_cons,
        sumOverList_eq_walkSum f names]
  | .importFrom m names lvl => by
      simp only [sumOver, walk, List.map_cons, List.sum_cons,
        sumOverList_eq_walkSum f names]
  | .aliasNode n a => by
      simp [sumOver, walk]
  | .other tag children => by
      simp only [sumOver, walk, List.map_cons, List.sum_cons,
        sumOverList_eq_walkSum f children]

theorem sumOverList_eq_walkSum (f : PyAst → Nat) :
    ∀ l, sumOverList f l = ((walkList l).map f).sum
  | [] => by simp [sumOverList, walkList]
  | t :: ts => by
      simp only [sumOverList, walkList, List.map_append, List.sum_append,
        sumOver_eq_walkSum f t, sumOverList_eq_walkSum f ts]

end

/-- At any node that is not a degenerate (zero-operand) boolean
operator, the analyzer's increment is the sum of the per-construct
increments. -/
theorem increment_decompose (n : PyAst)
    (h : (match n with | PyAst.boolOp values => !values.isEmpty | _ => true) = true) :
    cyclomaticIncrement n =
      ((incIf n + incWhile n + incFor n + incExcept n
        + incBoolExtra n + incWithItems n : ℕ) : ℤ) := by
  cases n
  case boolOp values =>
    have hne : values ≠ [] := by simpa using h
    have hlen : 1 ≤ values.length := List.length_pos.mpr hne
    simp only [cyclomaticIncrement, incIf, incWhile, incFor, incExcept,
      incBoolExtra, incWithItems]
    omega
  all_goals
    simp [cyclomaticIncrement, incIf, incWhile, incFor, incExcept,
      incBoolExtra, incWithItems]

/-- Summing the analyzer's increment over a node list decomposes into
the six per-construct sums when every node satisfies the pointwise
decomposition. -/
theorem sum_increments (l : List PyAst)
    (h : ∀ n ∈ l, cyclomaticIncrement n =
        ((incIf n + incWhile n + incFor n + incExcept n
          + incBoolExtra n + incWithItems n : ℕ) : ℤ)) :
    (l.map cyclomaticIncrement).sum =
      (((l.map incIf).sum + (l.map incWhile).sum + (l.map incFor).sum
        + (l.map incExcept).sum + (l.map incBoolExtra).sum
        + (l.map incWithItems).sum : ℕ) : ℤ) := by
  induction l with
  | nil => simp
  | cons a l ih =>
    simp only [List.map_cons, List.sum_cons]
    rw [h a (List.mem_cons_self a l), ih (fun n hn => h n (List.mem_cons_of_mem a hn))]
    push_cast
    ring

/-- The central decomposition: for a tree with no degenerate boolean
operators (every tree produced by `ast.parse`), the source's whole-file
cyclomatic complexity equals 1 plus one increment per conditional
branch, loop, exception handler, boolean-operator operand beyond the
first, and `with`-clause item, counted over the entire tree. -/
theorem cyclomatic_decomposition (t : PyAst) (hwf : wellFormedBoolOps t = true) :
    calculate_cyclomatic_complexity t =
      1 + ((countIf t + countWhile t + countFor t + countExcept t
            + countBoolOpExtra t + countWithItems t : ℕ) : ℤ) := by
  have hpt : ∀ n ∈ walk t, cyclomaticIncrement n =
      ((incIf n + incWhile n + incFor n + incExcept n
        + incBoolExtra n + incWithItems n : ℕ) : ℤ) := by
    intro n hn
    apply increment_decompose
    rw [wellFormedBoolOps] at hwf
    exact List.all_eq_true.mp hwf n hn
  rw [calculate_cyclomatic_complexity, sum_increments (walk t) hpt,
    countIf, countWhile, countFor, countExcept, countBoolOpExtra, countWithItems,
    sumOver_eq_walkSum, sumOver_eq_walkSum, sumOver_eq_walkSum,
    sumOver_eq_walkSum, sumOver_eq_walkSum, sumOver_eq_walkSum]

/-- Helper: the success path of `analyze` in closed form. -/
theorem analyze_success (stdlib : List String) (maxBytes : Nat) (f : PyFileModel)
    (content : PyContent) (tree : PyAst) (s : Nat)
    (hck : check_file_size f maxBytes = true) (hread : f.read_text = .ok content)
    (hs : f.stat_size = .ok s) (hparse : content.parse = .ok tree) :
    analyze stdlib maxBytes f = .ok (AnalysisResult.make
      ⟨f.path, s, content.line_count, f.encoding_detected, "python"⟩
      (some (astTag tree)) (some (runVisitor tree).functions)
      (some (runVisitor tree).imports) (some (runVisitor tree).classes)
      (some (get_dependencies stdlib (runVisitor tree)))
      (some (calculate_complexity tree)) none) := by
  unfold analyze
  rw [hck, hread, hs]
  simp [hparse]

/-- C4: for every successfully parsed file, the whole-file cyclomatic
complexity reported by `analyze` equals 1 plus one increment for each
conditional branch, each loop, each exception-handler clause, each
boolean-operator operand beyond the first, and each `with`-clause item,
counted over the entire tree by independent structural counters. -/
theorem C4_whole_file_cyclomatic_decomposes (stdlib : List String) (maxBytes : Nat)
    (f : PyFileModel) (content : PyContent) (tree : PyAst)
    (hck : check_file_size f maxBytes = true) (hread : f.read_text = .ok content)
    (hparse : content.parse = .ok tree) (hwf : wellFormedBoolOps tree = true) :
    ∃ r, analyze stdlib maxBytes f = .ok r ∧
      dictGet (r.complexity_metrics.getD []) "cyclomatic_complexity" =
        some (1 + ((countIf tree + countWhile tree + countFor tree + countExcept tree
              + countBoolOpExtra tree + countWithItems tree : ℕ) : ℤ)) := by
  obtain ⟨s, hs⟩ := stat_ok_of_check f maxBytes hck
  refine ⟨_, analyze_success stdlib maxBytes f content tree s hck hread hs hparse, ?_⟩
  have hdg : dictGet (calculate_complexity tree) "cyclomatic_complexity" =
      some (calculate_cyclomatic_complexity tree) := rfl
  show dictGet (calculate_complexity tree) "cyclomatic_complexity" = _
  rw [hdg, cyclomatic_decomposition tree hwf]

/-- C4 witness: the decomposition evaluated on the concrete
`with a: pass` file (one `with` item, so complexity 2). -/
theorem C4_witness :
    ∃ r, analyze [] max_file_size_bytes cxWithFile = .ok r ∧
      dictGet (r.complexity_metrics.getD []) "cyclomatic_complexity" =
        some (1 + ((countIf cxWithTree + countWhile cxWithTree + countFor cxWithTree
              + countExcept cxWithTree + countBoolOpExtra cxWithTree
              + countWithItems cxWithTree : ℕ) : ℤ)) :=
  C4_whole_file_cyclomatic_decomposes [] max_file_size_bytes cxWithFile
    ⟨1, .ok cxWithTree⟩ cxWithTree (by decide) rfl rfl (by decide)

/-- `visit_Import` touches only the import and dependency fields. -/
theorem doImportAliases_functions (s : VisitorState) (names : List PyAst) :
    (doImportAliases s names).functions = s.functions := by
  induction names generalizing s with
  | nil => rfl
  | cons t rest ih => cases t <;> simp [doImportAliases, ih]

/-- `visit_ImportFrom` touches only the import and dependency fields. -/
theorem doFromAliases_functions (s : VisitorState) (m : Option String) (lvl : Nat)
    (names : List PyAst) : (doFromAliases s m lvl names).functions = s.functions := by
  induction names generalizing s with
  | nil => rfl
  | cons t rest ih =>
    cases t <;> simp only [doFromAliases, ih]
    split <;> simp [ih]

mutual

/-- If every function record collected so far has complexity 1 and the
subtree contains no branch, loop or handler nodes, then after the
visitor walks the subtree every collected record still has complexity 1
(each function node's own subtree is free of increments). -/
theorem visit_functions_one :
    ∀ (ctx : Option String) (s : VisitorState) (t : PyAst),
      (∀ fr ∈ s.functions, fr.complexity = 1) →
      (∀ m ∈ walk t, functionIncrement m = 0) →
      ∀ fr ∈ (visit ctx s t).functions, fr.complexity = 1
  | ctx, s, .moduleNode body, hs, h => by
      rw [visit]
      exact visitList_functions_one ctx s body hs
        (fun m hm => h m (by simp [walk]; tauto))
  | ctx, s, .ifStmt test body orelse, hs, h => by
      rw [visit]
      exact visitList_functions_one ctx _ orelse
        (visitList_functions_one ctx _ body
          (visit_functions_one ctx s test hs
            (fun m hm => h m (by simp [walk]; tauto)))
          (fun m hm => h m (by simp [walk]; tauto)))
        (fun m hm => h m (by simp [walk]; tauto))
  | ctx, s, .whileStmt test body orelse, hs, h => by
      rw [visit]
      exact visitList_functions_one ctx _ orelse
        (visitList_functions_one ctx _ body
          (visit_functions_one ctx s test hs
            (fun m hm => h m (by simp [walk]; tauto)))
          (fun m hm => h m (by simp [walk]; tauto)))
        (fun m hm => h m (by simp [walk]; tauto))
  | ctx, s, .forStmt target iter body orelse, hs, h => by
      rw [visit]
      exact visitList_functions_one ctx _ orelse
        (visitList_functions_one ctx _ body
          (visit_functions_one ctx _ iter
            (visit_functions_one ctx s target hs
              (fun m hm => h m (by simp [walk]; tauto)))
            (fun m hm => h m (by simp [walk]; tauto)))
          (fun m hm => h m (by simp [walk]; tauto)))
        (fun m hm => h m (by simp [walk]; tauto))
  | ctx, s, .tryStmt body handlers orelse finalbody, hs, h => by
      rw [visit]
      exact visitList_functions_one ctx _ finalbody
        (visitList_functions_one ctx _ orelse
          (visitList_functions_one ctx _ handlers
            (visitList_functions_one ctx s body hs
              (fun m hm => h m (by simp [walk]; tauto)))
            (fun m hm => h m (by simp [walk]; tauto)))
          (fun m hm => h m (by simp [walk]; tauto)))
        (fun m hm => h m (by simp [walk]; tauto))
  | ctx, s, .exceptHandler body, hs, h => by
      rw [visit]
      exact visitList_functions_one ctx s body hs
        (fun m hm => h m (by simp [walk]; tauto))
  | ctx, s, .withStmt items body, hs, h => by
      rw [visit]
      exact visitList_functions_one ctx _ body
        (visitList_functions_one ctx s items hs
          (fun m hm => h m (by simp [walk]; tauto)))
        (fun m hm => h m (by simp [walk]; tauto))
  | ctx, s, .withItem ce ov, hs, h => by
      rw [visit]
      exact visitList_functions_one ctx _ ov
        (visit_functions_one ctx s ce hs
          (fun m hm => h m (by simp [walk]; tauto)))
        (fun m hm => h m (by simp [walk]; tauto))
  | ctx, s, .boolOp values, hs, h => by
      rw [visit]
      exact visitList_functions_one ctx s values hs
        (fun m hm => h m (by simp [walk]; tauto))
  | ctx, s, .functionDef name body, hs, h => by
      rw [visit]
      refine visitList_functions_one ctx _ body ?_
        (fun m hm => h m (by simp [walk]; tauto))
      intro fr hfr
      rcases List.mem_append.mp hfr with h1 | h2
      · exact hs fr h1
      · have hfr2 := List.mem_singleton.mp h2
        subst hfr2
        show calculate_function_complexity (.functionDef name body) = 1
        rw [calculate_function_complexity]
        have hz : ((walk (.functionDef name body)).map functionIncrement).sum = 0 := by
          apply List.sum_eq_zero
          intro x hx
          rcases List.mem_map.mp hx with ⟨m, hm, rfl⟩
          exact h m hm
        rw [hz]
  | ctx, s, .asyncFunctionDef name body, hs, h => by
      rw [visit]
      refine visitList_functions_one ctx _ body ?_
        (fun m hm => h m (by simp [walk]; tauto))
      intro fr hfr
      rcases List.mem_append.mp hfr with h1 | h2
      · exact hs fr h1
      · have hfr2 := List.mem_singleton.mp h2
        subst hfr2
        show calculate_function_complexity (.asyncFunctionDef name body) = 1
        rw [calculate_function_complexity]
        have hz : ((walk (.asyncFunctionDef name body)).map functionIncrement).sum = 0 := by
          apply List.sum_eq_zero
          intro x hx
          rcases List.mem_map.mp hx with ⟨m, hm, rfl⟩
          exact h m hm
        rw [hz]
  | ctx, s, .classDef name bases body, hs, h => by
      rw [visit]
      exact visitList_functions_one (some name) _ body hs
        (fun m hm => h m (by simp [walk]; tauto))
  | ctx, s, .importStmt names, hs, h => by
      rw [visit]
      refine visitList_functions_one ctx _ names ?_
        (fun m hm => h m (by simp [walk]; tauto))
      rw [doImportAliases_functions]
      exact hs
  | ctx, s, .importFrom m names lvl, hs, h => by
      rw [visit]
      refine visitList_functions_one ctx _ names ?_
        (fun mm hm => h mm (by simp [walk]; tauto))
      rw [doFromAliases_functions]
      exact hs
  | _, s, .aliasNode n a, hs, _ => by
      rw [visit]
      exact hs
  | ctx, s, .other tag children, hs, h => by
      rw [visit]
      exact visitList_functions_one ctx s children hs
        (fun m hm => h m (by simp [walk]; tauto))

theorem visitList_functions_one :
    ∀ (ctx : Option String) (s : VisitorState) (l : List PyAst),
      (∀ fr ∈ s.functions, fr.complexity = 1) →
      (∀ m ∈ walkList l, functionIncrement m = 0) →
      ∀ fr ∈ (visitList ctx s l).functions, fr.complexity = 1
  | _, s, [], hs, _ => by
      rw [visitList]
      exact hs
  | ctx, s, t :: ts, hs, h => by
      rw [visitList]
      exact visitList_functions_one ctx _ ts
        (visit_functions_one ctx s t hs
          (fun m hm => h m (by simp [walkList]; tauto)))
        (fun m hm => h m (by simp [walkList]; tauto))

end

/-- A tree whose four branch counters vanish has no branch, loop or
handler node anywhere, so the per-function increment is zero at every
node. -/
theorem no_branch_nodes (t : PyAst) (h0 : countIf t = 0) (h1 : countWhile t = 0)
    (h2 : countFor t = 0) (h3 : countExcept t = 0) :
    ∀ m ∈ walk t, functionIncrement m = 0 := by
  have key : ∀ g : PyAst → Nat, sumOver g t = 0 → ∀ m ∈ walk t, g m = 0 := by
    intro g hg m hm
    rw [sumOver_eq_walkSum] at hg
    exact List.sum_eq_zero_iff.mp hg (g m) (List.mem_map_of_mem g hm)
  intro m hm
  have e : functionIncrement m = incIf m + incWhile m + incFor m + incExcept m := by
    cases m <;> rfl
  rw [e, key incIf h0 m hm, key incWhile h1 m hm, key incFor h2 m hm,
    key incExcept h3 m hm]

/-- C5 (counterexample): the file `with a: pass` has zero conditional
branches, zero loops and zero exception handlers, yet `analyze` reports
whole-file cyclomatic complexity 2 (the `with` clause item increments
it), not 1 as the claim requires. -/
theorem C5_counterexample :
    countIf cxWithTree = 0 ∧ countWhile cxWithTree = 0 ∧ countFor cxWithTree = 0 ∧
    countExcept cxWithTree = 0 ∧
    (analyze [] max_file_size_bytes cxWithFile).map
        (fun r => dictGet (r.complexity_metrics.getD []) "cyclomatic_complexity") =
      .ok (some 2) ∧
    some (2 : ℤ) ≠ some 1 :=
  ⟨by decide, by decide, by decide, by decide, rfl, by decide⟩

/-- C5 (amended): for a parsed file with zero branches, loops and
handlers, `analyze` reports per-function cyclomatic complexity exactly 1
for every function; the whole-file complexity is exactly 1 when
additionally the file has no boolean-operator operands beyond the first
and no `with`-clause items (which the whole-file metric also counts). -/
theorem C5_amended_complexity_floor (stdlib : List String) (maxBytes : Nat)
    (f : PyFileModel) (content : PyContent) (tree : PyAst)
    (hck : check_file_size f maxBytes = true) (hread : f.read_text = .ok content)
    (hparse : content.parse = .ok tree)
    (h0 : countIf tree = 0) (h1 : countWhile tree = 0)
    (h2 : countFor tree = 0) (h3 : countExcept tree = 0) :
    (countBoolOpExtra tree = 0 → countWithItems tree = 0 →
      wellFormedBoolOps tree = true →
      ∃ r, analyze stdlib maxBytes f = .ok r ∧
        dictGet (r.complexity_metrics.getD []) "cyclomatic_complexity" = some 1) ∧
    (∃ r, analyze stdlib maxBytes f = .ok r ∧
      ∀ fr ∈ (r.functions.getD []), fr.complexity = 1) := by
  obtain ⟨s, hs⟩ := stat_ok_of_check f maxBytes hck
  constructor
  · intro hb hw hwf
    refine ⟨_, analyze_success stdlib maxBytes f content tree s hck hread hs hparse, ?_⟩
    have hdg : dictGet (calculate_complexity tree) "cyclomatic_complexity" =
        some (calculate_cyclomatic_complexity tree) := rfl
    show dictGet (calculate_complexity tree) "cyclomatic_complexity" = _
    rw [hdg, cyclomatic_decomposition tree hwf, h0, h1, h2, h3, hb, hw]
    norm_num
  · refine ⟨_, analyze_success stdlib maxBytes f content tree s hck hread hs hparse, ?_⟩
    have hfr : ∀ fr ∈ (runVisitor tree).functions, fr.complexity = 1 :=
      visit_functions_one none emptyVisitorState tree
        (fun fr hfr => absurd hfr (List.not_mem_nil fr))
        (no_branch_nodes tree h0 h1 h2 h3)
    exact hfr

/-- C5 witness: a file defining one straight-line function has
whole-file complexity 1 and per-function complexity 1. -/
theorem C5_witness :
    (∃ r, analyze [] max_file_size_bytes plainFuncFile = .ok r ∧
      dictGet (r.complexity_metrics.getD []) "cyclomatic_complexity" = some 1) ∧
    (∃ r, analyze [] max_file_size_bytes plainFuncFile = .ok r ∧
      ∀ fr ∈ (r.functions.getD []), fr.complexity = 1) := by
  have h := C5_amended_complexity_floor [] max_file_size_bytes plainFuncFile
    ⟨2, .ok plainFuncTree⟩ plainFuncTree (by decide) rfl rfl
    (by decide) (by decide) (by decide) (by decide)
  exact ⟨h.1 (by decide) (by decide) (by decide), h.2⟩

/-- C9: the largest-files report is the `n`-prefix of the stable
descending sort of the discovered files — it is ordered by byte size
descending, every discovered file left out is no larger than every
reported file, its length is `n` capped by the number of discovered
files, and tied files keep their discovery order through the sort
(stability); concretely, for files of sizes 10, 1000 and 500 with top-2
requested, the report is exactly the 1000-byte file followed by the
500-byte file. -/
theorem C9_largest_files_report :
    (∀ patterns root n,
      List.Sorted sizeGe (find_largest_files patterns root n) ∧
      (∃ rest, (discoveredFiles patterns root).Perm
          (find_largest_files patterns root n ++ rest) ∧
        ∀ y ∈ rest, ∀ x ∈ find_largest_files patterns root n, y.size ≤ x.size) ∧
      (find_largest_files patterns root n).length =
        min n (discoveredFiles patterns root).length ∧
      (∀ a b, List.Sublist [a, b] (discoveredFiles patterns root) → sizeGe a b →
        List.Sublist [a, b]
          ((discoveredFiles patterns root).insertionSort sizeGe))) ∧
    find_largest_files DEFAULT_IGNORE_PATTERNS sizesProj 2 =
      [⟨"big.txt", 1000⟩, ⟨"mid.txt", 500⟩] := by
  constructor
  · intro patterns root n
    have hsorted : List.Sorted sizeGe
        ((discoveredFiles patterns root).insertionSort sizeGe) :=
      List.sorted_insertionSort sizeGe (discoveredFiles patterns root)
    refine ⟨?_, ⟨((discoveredFiles patterns root).insertionSort sizeGe).drop n,
        ?_, ?_⟩, ?_, ?_⟩
    · exact List.Pairwise.sublist (List.take_sublist n _) hsorted
    · rw [show find_largest_files patterns root n =
          ((discoveredFiles patterns root).insertionSort sizeGe).take n from rfl,
        List.take_append_drop]
      exact (List.perm_insertionSort sizeGe (discoveredFiles patterns root)).symm
    · intro y hy x hx
      exact hsorted.rel_of_mem_take_of_mem_drop hx hy
    · rw [show find_largest_files patterns root n =
          ((discoveredFiles patterns root).insertionSort sizeGe).take n from rfl]
      simp [List.length_take]
    · exact fun a b hab hr => List.pair_sublist_insertionSort hr hab
  · decide

/-- C9 witness: the two tied-and-larger concrete files stay in
discovery order through the sort. -/
theorem C9_witness :
    List.Sublist [LargeFileRec.mk "big.txt" 1000, LargeFileRec.mk "mid.txt" 500]
      ((discoveredFiles DEFAULT_IGNORE_PATTERNS sizesProj).insertionSort sizeGe) :=
  (C9_largest_files_report.1 DEFAULT_IGNORE_PATTERNS sizesProj 2).2.2.2
    ⟨"big.txt", 1000⟩ ⟨"mid.txt", 500⟩ (by decide) (by decide)

/-- C8 witness: removing the concrete ignored entry `.git` from a
concrete listing leaves the scan result unchanged. -/
theorem C8_witness :
    scanEntries DEFAULT_IGNORE_PATTERNS max_depth_default
        ([FsEntry.file "a.py" 10] ++ FsEntry.dir ".git" [.file "HEAD" 30] :: [FsEntry.file "b.txt" 20])
        0 (.mk "proj" [] []) ⟨0, 0, [], []⟩ =
      scanEntries DEFAULT_IGNORE_PATTERNS max_depth_default
        ([FsEntry.file "a.py" 10] ++ [FsEntry.file "b.txt" 20])
        0 (.mk "proj" [] []) ⟨0, 0, [], []⟩ :=
  C8_ignored_entries_contribute_nothing.1 DEFAULT_IGNORE_PATTERNS max_depth_default
    (FsEntry.dir ".git" [.file "HEAD" 30]) [FsEntry.file "a.py" 10]
    [FsEntry.file "b.txt" 20] 0 (.mk "proj" [] []) ⟨0, 0, [], []⟩ (by decide)

end MCA
